import Mathlib

/-!
Shallow embedding of the Taiwan stock value-screening tool (`main.py`) and
verification of its specification claims.

Modelling conventions:
* Python floats are modelled as exact rationals (`ℚ`).
* A pandas cell is either a string or `NaN` (`Cell`).
* A pandas `DataFrame` is a list of column labels (themselves cells, since the
  code re-bases the columns from a data row) plus a list of rows (`DF`).
* Fallible Python code is embedded in `Except PyErr`; the module-level
  `try/except` handlers become `match` on the `Except`.
* Dictionary fields that may be absent, or present with value `None`, are
  modelled as `Option (Option _)`: outer `none` = key absent, inner `none` =
  key present with value `None`.
-/

namespace StockValue

/-- Python runtime errors relevant to this program. -/
inductive PyErr where
  | netErr
  | keyErr
  | nameErr
deriving DecidableEq

/-- A pandas cell: a string or NaN (missing value). -/
inductive Cell where
  | str (s : String)
  | nan
deriving DecidableEq

/-- Does `pat` occur at the head of the character list? -/
def leadsWith : List Char → List Char → Bool
  | [], _ => true
  | _ :: _, [] => false
  | a :: as, b :: bs => a == b && leadsWith as bs

/-- Does `pat` occur anywhere in the character list?  Models Python `pat in s`
for non-empty `pat`. -/
def hasSub (pat : List Char) : List Char → Bool
  | [] => pat.isEmpty
  | c :: rest => leadsWith pat (c :: rest) || hasSub pat rest

/-- Python substring test `pat in s`. -/
def strHas (s pat : String) : Bool := hasSub pat.data s.data

/-- Split a character list on a separator character; models Python
`s.split(sep)` for a one-character separator. -/
def splitOnChar (sep : Char) : List Char → List (List Char)
  | [] => [[]]
  | c :: rest =>
    let r := splitOnChar sep rest
    if c == sep then [] :: r
    else
      match r with
      | [] => [[c]]
      | h :: t => (c :: h) :: t

/-- Rebuild a string from characters. -/
def chStr (cs : List Char) : String := String.mk cs

/-- The full-width space U+3000 used by the exchange as code/name delimiter. -/
def fwsp : Char := '　'

/-- The full-width space as a string. -/
def fwspStr : String := chStr [fwsp]

/-- Python `s.split('　')` for the full-width space. -/
def pySplitFW (s : String) : List String := (splitOnChar fwsp s.data).map chStr

/-- ASCII apostrophe character used by `repr` of a Python string. -/
def quoteCh : Char := Char.ofNat 39

/-- `repr` of one cell inside `str(numpy_object_array)`. -/
def cellRepr : Cell → String
  | .str s => chStr (quoteCh :: s.data ++ [quoteCh])
  | .nan => "nan"

/-- Join strings with single spaces (numpy object-array element separator). -/
def joinSp : List String → String
  | [] => ""
  | [s] => s
  | s :: s2 :: rest => s ++ " " ++ joinSp (s2 :: rest)

/-- Models `str(df.iloc[i].values)`: bracketed, space-separated cell reprs. -/
def rowStr (r : List Cell) : String := "[" ++ joinSp (r.map cellRepr) ++ "]"

/-- The combined security code / name column label searched for by the code. -/
def secCol : String := "有價證券代號及名稱"

/-- Header-row test of `main.py` line 55:
`'有價證券代號' in row_str and '名稱' in row_str`. -/
def rowKW (r : List Cell) : Bool :=
  strHas (rowStr r) "有價證券代號" && strHas (rowStr r) "名稱"

/-- Scan at most `fuel` rows for the header keyword, returning the relative
index of the first hit; models the `for i in range(min(5, len(df)))` loop with
`break`. -/
def scanKW : List (List Cell) → Nat → Option Nat
  | [], _ => none
  | _ :: _, 0 => none
  | r :: rest, fuel + 1 =>
    if rowKW r then some 0 else (scanKW rest fuel).map (· + 1)

/-- The header-row search of `fetch_and_parse` (lines 51-57). -/
def findHeader (rows : List (List Cell)) : Option Nat := scanKW rows 5

/-- A pandas DataFrame: column labels (cells, because the code re-bases the
columns from a data row) and data rows. -/
structure DF where
  cols : List Cell
  rows : List (List Cell)
deriving DecidableEq

/-- The empty DataFrame `pd.DataFrame()`. -/
def DF.empty : DF := ⟨[], []⟩

/-- Outcome of `requests.get` + `pd.read_html` for one segment:
the request or read raised, or the page had no tables, or row data. -/
inductive Fetch where
  | err
  | noTables
  | tables (rows : List (List Cell))

/-- `fetch_and_parse` (lines 36-67): locate the header row among the first
five rows; on success, re-base the columns to that row and keep only the rows
strictly after it; on failure return an empty frame; a raised request is an
exception. -/
def fetch_and_parse : Fetch → Except PyErr DF
  | .err => .error .netErr
  | .noTables => .ok DF.empty
  | .tables rows =>
    match findHeader rows with
    | none => .ok DF.empty
    | some k => .ok ⟨rows.getD k [], rows.drop (k + 1)⟩

/-- First index of a cell in a list of cells. -/
def idxOf? (c : Cell) : List Cell → Option Nat
  | [] => none
  | x :: xs => if x = c then some 0 else (idxOf? c xs).map (· + 1)

/-- Index of a string-labelled column. -/
def DF.colIdx (df : DF) (k : String) : Option Nat := idxOf? (.str k) df.cols

/-- The cell of row `r` (a row of `df`) under column label `c`; NaN when the
label is absent (used for pandas concat column alignment). -/
def DF.cellOf (df : DF) (r : List Cell) (c : Cell) : Cell :=
  match idxOf? c df.cols with
  | some i => r.getD i .nan
  | none => .nan

/-- Column-label union preserving order of the left operand. -/
def dedupAppend (xs ys : List Cell) : List Cell :=
  xs ++ ys.filter (fun c => decide (c ∉ xs))

/-- `pd.concat([d1, d2], ignore_index=True)`: union of columns, rows aligned
by label with NaN fill. -/
def DF.concat (d1 d2 : DF) : DF :=
  let cs := dedupAppend d1.cols d2.cols
  ⟨cs, d1.rows.map (fun r => cs.map (d1.cellOf r)) ++
       d2.rows.map (fun r => cs.map (d2.cellOf r))⟩

/-- `df.dropna(subset=[k])`: KeyError when the column is absent, else drop
rows whose cell in that column is NaN. -/
def DF.dropnaOn (df : DF) (k : String) : Except PyErr DF :=
  match df.colIdx k with
  | none => .error .keyErr
  | some i => .ok ⟨df.cols, df.rows.filter (fun r => r.getD i .nan ≠ .nan)⟩

/-- `str(cell)` as used by `.astype(str)`: NaN prints as "nan". -/
def cellAsStr : Cell → String
  | .str s => s
  | .nan => "nan"

/-- `df[df[k].astype(str).str.contains('　')]`. -/
def DF.filterContainsFW (df : DF) (k : String) : Except PyErr DF :=
  match df.colIdx k with
  | none => .error .keyErr
  | some i =>
    .ok ⟨df.cols, df.rows.filter (fun r => strHas (cellAsStr (r.getD i .nan)) fwspStr)⟩

/-- Read a whole column, as `df[k]`; KeyError when absent. -/
def DF.getCol (df : DF) (k : String) : Except PyErr (List Cell) :=
  match df.colIdx k with
  | none => .error .keyErr
  | some i => .ok (df.rows.map (fun r => r.getD i .nan))

/-- `df[k] = vals`: replace the column when the label exists, else append it. -/
def DF.assign (df : DF) (k : String) (vals : List Cell) : DF :=
  match df.colIdx k with
  | some i => ⟨df.cols, (df.rows.zip vals).map (fun p => p.1.set i p.2)⟩
  | none => ⟨df.cols ++ [.str k], (df.rows.zip vals).map (fun p => p.1 ++ [p.2])⟩

/-- `series.str.split('　').str[i]`: NaN-safe part extraction. -/
def splitGet (c : Cell) (i : Nat) : Cell :=
  match c with
  | .nan => .nan
  | .str s =>
    match (pySplitFW s).get? i with
    | some p => .str p
    | none => .nan

/-- `df[df[k].str.len() == 4]`: keep rows whose cell in column `k` is a string
of length 4 (NaN compares unequal). -/
def DF.filterStrLen (df : DF) (k : String) (n : Nat) : Except PyErr DF :=
  match df.colIdx k with
  | none => .error .keyErr
  | some i =>
    .ok ⟨df.cols, df.rows.filter (fun r =>
      match r.getD i .nan with
      | .str s => s.length == n
      | .nan => false)⟩

/-- `series + '.TW'` on cells: string concatenation, NaN propagates. -/
def addSuf (suf : String) : Cell → Cell
  | .str s => .str (s ++ suf)
  | .nan => .nan

/-- A SecurityListing as built into `final_list`. -/
structure Listing where
  code : String
  name : String
  yf_ticker : String
deriving DecidableEq

/-- The per-segment `final_list` loop (lines 107-118): for each row, take the
combined code/name cell; skip non-strings and strings without the full-width
delimiter; split, keep the first two parts; keep only 4-character codes; the
ticker is the code plus the segment suffix. -/
def buildSegment (df : DF) (suf : String) : Except PyErr (List Listing) := do
  let cells ← df.getCol secCol
  return cells.filterMap (fun c =>
    match c with
    | .nan => none
    | .str s =>
      if strHas s fwspStr then
        let parts := pySplitFW s
        let c0 := parts.getD 0 ""
        let n0 := parts.getD 1 ""
        if c0.length = 4 then some ⟨c0, n0, c0 ++ suf⟩ else none
      else none)

/-- The body of `get_tw_stock_list` after both segment parses (lines 78-120),
statement by statement. -/
def post_parse (df_listed df_otc : DF) : Except PyErr (List Listing) := do
  let df_all := DF.concat df_listed df_otc
  let df_all ← df_all.dropnaOn secCol
  let df_all ← df_all.filterContainsFW secCol
  let col1 ← df_all.getCol secCol
  let df_all := df_all.assign "code" (col1.map (fun c => splitGet c 0))
  let col2 ← df_all.getCol secCol
  let df_all := df_all.assign "name" (col2.map (fun c => splitGet c 1))
  let _ ← df_all.filterStrLen "code" 4
  let lc ← df_listed.getCol "code"
  let df_listed2 := df_listed.assign "yf_ticker" (lc.map (addSuf ".TW"))
  let oc ← df_otc.getCol "code"
  let df_otc2 := df_otc.assign "yf_ticker" (oc.map (addSuf ".TWO"))
  let l1 ← buildSegment df_listed2 ".TW"
  let l2 ← buildSegment df_otc2 ".TWO"
  return l1 ++ l2

/-- The `try` body of `get_tw_stock_list` (lines 29-120). -/
def tryGetList (f1 f2 : Fetch) : Except PyErr (List Listing) := do
  let df_listed ← fetch_and_parse f1
  let df_otc ← fetch_and_parse f2
  post_parse df_listed df_otc

/-- `get_tw_stock_list` (lines 25-124): any exception is caught and an empty
frame — modelled as the empty listing — is returned. -/
def get_tw_stock_list (f1 f2 : Fetch) : List Listing :=
  match tryGetList f1 f2 with
  | .ok l => l
  | .error _ => []

/-! ## Per-ticker analysis (`analyze_stock`, lines 148-190) -/

/-- The provider's snapshot dictionary `stock.info`, restricted to the keys
the program reads.  `Option (Option ℚ)`: outer `none` = key absent, inner
`none` = key present with value `None`.  `regularMarketPrice` is a secondary
current-price key carried by the provider; the code never reads it. -/
structure Info where
  currentPrice : Option (Option ℚ) := none
  regularMarketPrice : Option (Option ℚ) := none
  trailingPE : Option (Option ℚ) := none
  priceToBook : Option (Option ℚ) := none
  dividendYield : Option (Option ℚ) := none
  returnOnEquity : Option (Option ℚ) := none
  industry : Option (Option String) := none
deriving DecidableEq

/-- The four user thresholds (the `criteria` dict of line 210). -/
structure Criteria where
  pe : ℚ
  pb : ℚ
  yld : ℚ
  roe : ℚ
deriving DecidableEq

/-- The result record built at lines 177-186.  Field names transliterate the
Chinese keys: code = 代號, name = 名稱, price = 股價, pe = 本益比,
pb = 股價淨值比, yieldPct = 殖利率(%), roePct = ROE(%), industry = 產業.
`price` and `industry` are `Option` because `info.get` can yield `None`. -/
structure ScanRow where
  code : String
  name : String
  price : Option ℚ
  pe : ℚ
  pb : ℚ
  yieldPct : ℚ
  roePct : ℚ
  industry : Option String
deriving DecidableEq

/-- Python `round` to an integer: round-half-to-even on the exact value. -/
def pyRound (q : ℚ) : ℤ :=
  let f := ⌊q⌋
  let frac := q - f
  if frac < 1 / 2 then f
  else if 1 / 2 < frac then f + 1
  else if f % 2 = 0 then f else f + 1

/-- Python `round(q, 2)`. -/
def round2 (q : ℚ) : ℚ := (pyRound (q * 100) : ℚ) / 100

/-- `info.get(key, default)` for a numeric key: absent gives the default,
present gives the stored value (possibly `None`). -/
def pyGetNum (field : Option (Option ℚ)) (d : ℚ) : Option ℚ :=
  match field with
  | none => some d
  | some v => v

/-- The `if x is None: x = d` guard of lines 164-167. -/
def noneSub (v : Option ℚ) (d : ℚ) : ℚ :=
  match v with
  | none => d
  | some x => x

/-- The metric-availability gate of lines 156-157: no result when the
`currentPrice` key is absent (the lone "no tradable quote" test). -/
def fetch_metrics (fetch : Except PyErr Info) : Except Unit Info :=
  match fetch with
  | .error _ => .error ()
  | .ok info =>
    if info.currentPrice.isNone then .error () else .ok info

/-- The criterion evaluation and record construction of lines 159-186. -/
def evaluate (info : Info) (code name : String) (c : Criteria) : Option ScanRow :=
  let pe := noneSub (pyGetNum info.trailingPE 999) 999
  let pb := noneSub (pyGetNum info.priceToBook 999) 999
  let dy := noneSub (pyGetNum info.dividendYield 0) 0
  let roe := noneSub (pyGetNum info.returnOnEquity 0) 0
  let dy_pct := dy * 100
  let roe_pct := roe * 100
  if pe < c.pe ∧ pb < c.pb ∧ dy_pct > c.yld ∧ roe_pct > c.roe then
    some { code := code, name := name,
           price := match info.currentPrice with | some v => v | none => none,
           pe := round2 pe, pb := round2 pb,
           yieldPct := round2 dy_pct, roePct := round2 roe_pct,
           industry := match info.industry with
                       | none => some "N/A"
                       | some v => v }
  else
    none

/-- `analyze_stock` (lines 148-190): the provider call and everything after it
sit in a `try` whose handler returns `None`; a missing `currentPrice` key
returns `None`; otherwise evaluate the thresholds and build the record. -/
def analyze_stock (fetch : Except PyErr Info) (code name : String)
    (c : Criteria) : Option ScanRow :=
  match fetch_metrics fetch with
  | .error _ => none
  | .ok info => evaluate info code name c

/-! ## The scan loop (lines 193-220) -/

/-- The module-level imports of `main.py` (lines 1-5). -/
def moduleImports : List String :=
  ["streamlit", "yfinance", "pandas", "requests", "urllib3"]

/-- Resolution of a bare name against the module imports: a name that is not
imported raises `NameError`. -/
def resolveName (imports : List String) (n : String) : Except PyErr Unit :=
  if n ∈ imports then .ok () else .error .nameErr

/-- The imports with the missing `import time` added (the repair the pacing
call at line 217 assumes). -/
def fixedImports : List String := moduleImports ++ ["time"]

/-- The scan loop of lines 200-217 over the selected slice.  Per entry:
run `analyze_stock` with the criteria rebuilt from the sliders, append a
passing record, then execute `time.sleep(0.1)` — which first resolves the
name `time` against the module imports.  The provider is indexed by the
running call count so that per-call variation is expressible. -/
def scan_loop (imports : List String) (provider : Nat → Listing → Except PyErr Info)
    (c : Criteria) : List Listing → Nat → Except PyErr (List ScanRow)
  | [], _ => .ok []
  | r :: rest, n =>
    let res := analyze_stock (provider n r) r.code r.name c
    match resolveName imports "time" with
    | .error e => .error e
    | .ok _ =>
      match scan_loop imports provider c rest (n + 1) with
      | .error e => .error e
      | .ok tail =>
        .ok ((match res with | some x => [x] | none => []) ++ tail)

/-- The in-order aggregation the loop body performs on its passing entries:
the result list is the in-order filterMap of `analyze_stock` over the slice. -/
def scanPure (provider : Nat → Listing → Except PyErr Info) (c : Criteria) :
    List Listing → Nat → List ScanRow
  | [], _ => []
  | r :: rest, n =>
    (match analyze_stock (provider n r) r.code r.name c with
     | some x => [x]
     | none => []) ++ scanPure provider c rest (n + 1)

/-! ## Helper lemmas -/

theorem idxOf?_some_mem {c : Cell} {cs : List Cell} {i : Nat}
    (h : idxOf? c cs = some i) : c ∈ cs := by
  induction cs generalizing i with
  | nil => simp [idxOf?] at h
  | cons x xs ih =>
    by_cases hx : x = c
    · simp [hx]
    · simp only [idxOf?, hx, if_false, Option.map_eq_some'] at h
      obtain ⟨j, hj, _⟩ := h
      exact List.mem_cons_of_mem _ (ih hj)

theorem idxOf?_eq_none {c : Cell} {cs : List Cell}
    (h : c ∉ cs) : idxOf? c cs = none := by
  induction cs with
  | nil => rfl
  | cons x xs ih =>
    simp only [List.mem_cons, not_or] at h
    simp only [idxOf?]
    rw [if_neg (fun he => h.1 he.symm), ih h.2]
    rfl

theorem getCol_ok_mem {df : DF} {k : String} {c : List Cell}
    (h : df.getCol k = .ok c) : Cell.str k ∈ df.cols := by
  unfold DF.getCol at h
  rcases hidx : df.colIdx k with _ | i
  · simp [hidx] at h
  · exact idxOf?_some_mem hidx

theorem assign_rows_nil {df : DF} (k : String) (vals : List Cell)
    (h : df.rows = []) : (df.assign k vals).rows = [] := by
  unfold DF.assign
  rcases df.colIdx k with _ | i <;> simp [h]

theorem buildSegment_ok_rows_nil {df : DF} {suf : String} {l : List Listing}
    (hr : df.rows = []) (h : buildSegment df suf = .ok l) : l = [] := by
  unfold buildSegment at h
  simp only [bind, Except.bind] at h
  rcases hc : df.getCol secCol with e | cells <;> rw [hc] at h
  · cases h
  · have hcells : cells = [] := by
      unfold DF.getCol at hc
      rcases hidx : df.colIdx secCol with _ | i <;> rw [hidx] at hc
      · cases hc
      · cases hc
        simp [hr]
    subst hcells
    simp only [List.filterMap_nil, pure, Except.pure] at h
    cases h
    rfl

/-- Every error escaping `DF.dropnaOn` is a KeyError. -/
theorem dropnaOn_error_eq {df : DF} {k : String} {e : PyErr}
    (h : df.dropnaOn k = .error e) : e = .keyErr := by
  unfold DF.dropnaOn at h
  rcases hidx : df.colIdx k with _ | i <;> rw [hidx] at h
  · exact (Except.error.inj h).symm
  · exact Except.noConfusion h

/-- Every error escaping `DF.filterContainsFW` is a KeyError. -/
theorem filterContainsFW_error_eq {df : DF} {k : String} {e : PyErr}
    (h : df.filterContainsFW k = .error e) : e = .keyErr := by
  unfold DF.filterContainsFW at h
  rcases hidx : df.colIdx k with _ | i <;> rw [hidx] at h
  · exact (Except.error.inj h).symm
  · exact Except.noConfusion h

/-- Every error escaping `DF.getCol` is a KeyError. -/
theorem getCol_error_eq {df : DF} {k : String} {e : PyErr}
    (h : df.getCol k = .error e) : e = .keyErr := by
  unfold DF.getCol at h
  rcases hidx : df.colIdx k with _ | i <;> rw [hidx] at h
  · exact (Except.error.inj h).symm
  · exact Except.noConfusion h

/-- Every error escaping `DF.filterStrLen` is a KeyError. -/
theorem filterStrLen_error_eq {df : DF} {k : String} {n : Nat} {e : PyErr}
    (h : df.filterStrLen k n = .error e) : e = .keyErr := by
  unfold DF.filterStrLen at h
  rcases hidx : df.colIdx k with _ | i <;> rw [hidx] at h
  · exact (Except.error.inj h).symm
  · exact Except.noConfusion h

/-- Every error escaping `buildSegment` is a KeyError. -/
theorem buildSegment_error_eq {df : DF} {suf : String} {e : PyErr}
    (h : buildSegment df suf = .error e) : e = .keyErr := by
  unfold buildSegment at h
  rcases hc : df.getCol secCol with e2 | c
  · simp only [hc, bind, Except.bind] at h
    cases h
    exact getCol_error_eq hc
  · simp [hc, bind, Except.bind, pure, Except.pure] at h

/-- Inversion of a successful `post_parse` run: both per-segment `'code'`
column reads succeeded, both `final_list` loops succeeded, and the result is
their concatenation. -/
theorem post_parse_ok_inv {d1 d2 : DF} {l : List Listing}
    (h : post_parse d1 d2 = .ok l) :
    ∃ lc oc l1 l2,
      d1.getCol "code" = .ok lc ∧ d2.getCol "code" = .ok oc ∧
      buildSegment (d1.assign "yf_ticker" (lc.map (addSuf ".TW"))) ".TW" = .ok l1 ∧
      buildSegment (d2.assign "yf_ticker" (oc.map (addSuf ".TWO"))) ".TWO" = .ok l2 ∧
      l = l1 ++ l2 := by
  unfold post_parse at h
  simp only [bind, Except.bind] at h
  rcases h1 : (DF.concat d1 d2).dropnaOn secCol with e | a <;> rw [h1] at h <;> dsimp only at h
  · cases h
  rcases h2 : a.filterContainsFW secCol with e | b <;> rw [h2] at h <;> dsimp only at h
  · cases h
  rcases h3 : b.getCol secCol with e | col1 <;> rw [h3] at h <;> dsimp only at h
  · cases h
  rcases h4 : (b.assign "code" (col1.map (fun c => splitGet c 0))).getCol secCol
      with e | col2 <;> rw [h4] at h <;> dsimp only at h
  · cases h
  rcases h5 : ((b.assign "code" (col1.map (fun c => splitGet c 0))).assign "name"
      (col2.map (fun c => splitGet c 1))).filterStrLen "code" 4 with e | d <;> rw [h5] at h <;> dsimp only at h
  · cases h
  rcases h6 : d1.getCol "code" with e | lc <;> rw [h6] at h <;> dsimp only at h
  · cases h
  rcases h7 : d2.getCol "code" with e | oc <;> rw [h7] at h <;> dsimp only at h
  · cases h
  rcases h8 : buildSegment (d1.assign "yf_ticker" (lc.map (addSuf ".TW"))) ".TW"
      with e | l1 <;> rw [h8] at h <;> dsimp only at h
  · cases h
  rcases h9 : buildSegment (d2.assign "yf_ticker" (oc.map (addSuf ".TWO"))) ".TWO"
      with e | l2 <;> rw [h9] at h <;> dsimp only at h
  · cases h
  refine ⟨lc, oc, l1, l2, rfl, rfl, h8, h9, ?_⟩
  simpa [pure, Except.pure] using h.symm

/-- Every error escaping `post_parse` is a KeyError: each stage of the body
can only raise `KeyError`. -/
theorem post_parse_error_eq {d1 d2 : DF} {e : PyErr}
    (h : post_parse d1 d2 = .error e) : e = .keyErr := by
  unfold post_parse at h
  simp only [bind, Except.bind] at h
  rcases h1 : (DF.concat d1 d2).dropnaOn secCol with e1 | a <;> rw [h1] at h <;> dsimp only at h
  · cases h; exact dropnaOn_error_eq h1
  rcases h2 : a.filterContainsFW secCol with e1 | b <;> rw [h2] at h <;> dsimp only at h
  · cases h; exact filterContainsFW_error_eq h2
  rcases h3 : b.getCol secCol with e1 | col1 <;> rw [h3] at h <;> dsimp only at h
  · cases h; exact getCol_error_eq h3
  rcases h4 : (b.assign "code" (col1.map (fun c => splitGet c 0))).getCol secCol
      with e1 | col2 <;> rw [h4] at h <;> dsimp only at h
  · cases h; exact getCol_error_eq h4
  rcases h5 : ((b.assign "code" (col1.map (fun c => splitGet c 0))).assign "name"
      (col2.map (fun c => splitGet c 1))).filterStrLen "code" 4 with e1 | d <;> rw [h5] at h <;> dsimp only at h
  · cases h; exact filterStrLen_error_eq h5
  rcases h6 : d1.getCol "code" with e1 | lc <;> rw [h6] at h <;> dsimp only at h
  · cases h; exact getCol_error_eq h6
  rcases h7 : d2.getCol "code" with e1 | oc <;> rw [h7] at h <;> dsimp only at h
  · cases h; exact getCol_error_eq h7
  rcases h8 : buildSegment (d1.assign "yf_ticker" (lc.map (addSuf ".TW"))) ".TW"
      with e1 | l1 <;> rw [h8] at h <;> dsimp only at h
  · cases h; exact buildSegment_error_eq h8
  rcases h9 : buildSegment (d2.assign "yf_ticker" (oc.map (addSuf ".TWO"))) ".TWO"
      with e1 | l2 <;> rw [h9] at h <;> dsimp only at h
  · cases h; exact buildSegment_error_eq h9
  simp [pure, Except.pure] at h

/-- If the raw header row of the first (listed) segment has no cell that is
literally the string `code`, `post_parse` raises a KeyError: the `'code'`
column is created on the merged frame `df_all` only, never on `df_listed`. -/
theorem post_parse_keyErr_left {d1 d2 : DF}
    (hcode : Cell.str "code" ∉ d1.cols) :
    post_parse d1 d2 = .error .keyErr := by
  rcases h : post_parse d1 d2 with e | l
  · have he := post_parse_error_eq h
    subst he
    rfl
  · obtain ⟨lc, _, _, _, h6, _⟩ := post_parse_ok_inv h
    exact absurd (getCol_ok_mem h6) hcode

/-- Same on the second (OTC) segment. -/
theorem post_parse_keyErr_right {d1 d2 : DF}
    (hcode : Cell.str "code" ∉ d2.cols) :
    post_parse d1 d2 = .error .keyErr := by
  rcases h : post_parse d1 d2 with e | l
  · have he := post_parse_error_eq h
    subst he
    rfl
  · obtain ⟨_, oc, _, _, _, h7, _⟩ := post_parse_ok_inv h
    exact absurd (getCol_ok_mem h7) hcode

/-- Inversion of a successful `tryGetList` run: both segment parses succceded
and the post-parse body accepted them. -/
theorem tryGetList_ok_inv {f1 f2 : Fetch} {l : List Listing}
    (h : tryGetList f1 f2 = .ok l) :
    ∃ d1 d2, fetch_and_parse f1 = .ok d1 ∧ fetch_and_parse f2 = .ok d2 ∧
      post_parse d1 d2 = .ok l := by
  unfold tryGetList at h
  simp only [bind, Except.bind] at h
  rcases h1 : fetch_and_parse f1 with e | d1 <;> rw [h1] at h <;> dsimp only at h
  · cases h
  rcases h2 : fetch_and_parse f2 with e | d2 <;> rw [h2] at h <;> dsimp only at h
  · cases h
  exact ⟨d1, d2, rfl, rfl, h⟩

/-! ## Claim C1 -/

/-- The segment's acquisition failed: the HTTP fetch (or table read) raised,
or the parse produced the empty frame (no tables, or no header row found in
the first five rows). -/
def segFails (f : Fetch) : Prop :=
  f = .err ∨ fetch_and_parse f = .ok DF.empty

/-- Both segments parsed, but neither produced any data rows, so the merged
roster is empty. -/
def mergedEmpty (f1 f2 : Fetch) : Prop :=
  ∃ d1 d2, fetch_and_parse f1 = .ok d1 ∧ fetch_and_parse f2 = .ok d2 ∧
    d1.rows = [] ∧ d2.rows = []

/-- C1, counterexample to the claim as stated: when fetching of both market
segments fails, `get_tw_stock_list` returns the EMPTY roster — not the
claimed non-empty hard-coded static fallback sequence (no such fallback list
exists anywhere in the code; the exception handler at lines 122-124 returns
`pd.DataFrame()`). -/
theorem C1_counterexample : get_tw_stock_list .err .err = [] := rfl

/-- C1 (amended): for every execution in which fetching or parsing of either
market segment fails at any stage, or in which the merged result is empty,
`get_tw_stock_list` returns the empty roster — there is no static fallback
sequence, and a partial merge from only one real segment is likewise never
returned (the result is empty, not partial). -/
theorem C1_empty_roster_on_failure (f1 f2 : Fetch)
    (h : segFails f1 ∨ segFails f2 ∨ mergedEmpty f1 f2) :
    get_tw_stock_list f1 f2 = [] := by
  rcases hT : tryGetList f1 f2 with e | l
  · simp [get_tw_stock_list, hT]
  · obtain ⟨d1, d2, hp1, hp2, hpp⟩ := tryGetList_ok_inv hT
    have hgoal : get_tw_stock_list f1 f2 = l := by
      simp [get_tw_stock_list, hT]
    rw [hgoal]
    rcases h with hf | hf | hf
    · rcases hf with he | he
      · rw [he] at hp1
        simp [fetch_and_parse] at hp1
      · rw [he] at hp1
        cases hp1
        have hk : Cell.str "code" ∉ DF.empty.cols := by simp [DF.empty]
        rw [post_parse_keyErr_left hk] at hpp
        cases hpp
    · rcases hf with he | he
      · rw [he] at hp2
        simp [fetch_and_parse] at hp2
      · rw [he] at hp2
        cases hp2
        have hk : Cell.str "code" ∉ DF.empty.cols := by simp [DF.empty]
        rw [post_parse_keyErr_right hk] at hpp
        cases hpp
    · obtain ⟨d1x, d2x, hq1, hq2, hr1, hr2⟩ := hf
      rw [hp1] at hq1
      cases hq1
      rw [hp2] at hq2
      cases hq2
      obtain ⟨lc, oc, l1, l2, _, _, h8, h9, hl⟩ := post_parse_ok_inv hpp
      have e1 : l1 = [] :=
        buildSegment_ok_rows_nil (assign_rows_nil _ _ hr1) h8
      have e2 : l2 = [] :=
        buildSegment_ok_rows_nil (assign_rows_nil _ _ hr2) h9
      rw [hl, e1, e2]
      rfl

/-- C1 witness: the amended theorem applied at a doubly-failing fetch. -/
theorem C1_empty_roster_on_failure_witness : get_tw_stock_list .err .err = [] :=
  C1_empty_roster_on_failure .err .err (Or.inl (Or.inl rfl))

/-! ## Claim C2 -/

/-- C2: whenever both segment fetches succeed and parse (a header row is
found in each raw table, and — as with the real exchange tables — no cell of
the chosen header row is literally the string `code`), `get_tw_stock_list`
raises a KeyError internally: the `'code'` column is created only on the
merged frame `df_all` (line 87), never on the per-segment frame `df_listed`,
so the read `df_listed['code']` (line 99) fails, the exception handler is
reached, and the function returns the empty roster.  The successful-return
path after the suffix-assignment lines is unreachable. -/
theorem C2_code_column_keyError (r1 r2 : List (List Cell)) (k1 k2 : Nat)
    (h1 : findHeader r1 = some k1) (h2 : findHeader r2 = some k2)
    (hcode : Cell.str "code" ∉ r1.getD k1 []) :
    tryGetList (.tables r1) (.tables r2) = .error .keyErr ∧
    get_tw_stock_list (.tables r1) (.tables r2) = [] := by
  have hp1 : fetch_and_parse (.tables r1) = .ok ⟨r1.getD k1 [], r1.drop (k1 + 1)⟩ := by
    simp [fetch_and_parse, h1]
  have hp2 : fetch_and_parse (.tables r2) = .ok ⟨r2.getD k2 [], r2.drop (k2 + 1)⟩ := by
    simp [fetch_and_parse, h2]
  have hpp : post_parse ⟨r1.getD k1 [], r1.drop (k1 + 1)⟩
      ⟨r2.getD k2 [], r2.drop (k2 + 1)⟩ = .error .keyErr :=
    post_parse_keyErr_left hcode
  have hTry : tryGetList (.tables r1) (.tables r2) = .error .keyErr := by
    unfold tryGetList
    simp only [bind, Except.bind, hp1, hp2, hpp]
  exact ⟨hTry, by simp [get_tw_stock_list, hTry]⟩

/-- A two-row raw table whose first row is the real exchange header row. -/
def wTable : List (List Cell) :=
  [[.str "有價證券代號及名稱", .str "市場別"],
   [.str "1101　台泥", .str "上市"]]

/-- C2 witness: the theorem applied to a concrete pair of well-formed raw
tables. -/
theorem C2_code_column_keyError_witness :
    tryGetList (.tables wTable) (.tables wTable) = .error .keyErr ∧
    get_tw_stock_list (.tables wTable) (.tables wTable) = [] :=
  C2_code_column_keyError wTable wTable 0 0 (by decide) (by decide) (by decide)

/-! ## Claim C3 -/

/-- Modelled from the spec's words: the substitution policy for "maximum"
fields — a missing key or a `None` value becomes the large sentinel 999. -/
def specSubMax : Option (Option ℚ) → ℚ
  | some (some v) => v
  | _ => 999

/-- Modelled from the spec's words: the substitution policy for "minimum"
fields — a missing key or a `None` value becomes zero. -/
def specSubMin : Option (Option ℚ) → ℚ
  | some (some v) => v
  | _ => 0

theorem sub999 (f : Option (Option ℚ)) :
    noneSub (pyGetNum f 999) 999 = specSubMax f := by
  rcases f with _ | (_ | v) <;> rfl

theorem sub0 (f : Option (Option ℚ)) :
    noneSub (pyGetNum f 0) 0 = specSubMin f := by
  rcases f with _ | (_ | v) <;> rfl

/-- C3: the Criterion Evaluator substitutes a missing or `None` P/E and P/B
with the sentinel 999, a missing or `None` dividend yield and ROE with zero,
scales yield and ROE by 100, and passes the snapshot if and only if
`PE < maxPE ∧ PB < maxPB ∧ yieldPct > minYieldPct ∧ ROEPct > minROEPct`,
all four strict.  Additionally the sentinel fails the maximum comparison for
every threshold `≤ 999`, so an absent P/E never passes. -/
theorem C3_criterion_evaluator :
    (∀ (info : Info) (code name : String) (c : Criteria),
      (evaluate info code name c).isSome = true ↔
        (specSubMax info.trailingPE < c.pe ∧ specSubMax info.priceToBook < c.pb ∧
         specSubMin info.dividendYield * 100 > c.yld ∧
         specSubMin info.returnOnEquity * 100 > c.roe)) ∧
    (∀ (info : Info) (code name : String) (c : Criteria),
      (info.trailingPE = none ∨ info.trailingPE = some none) → c.pe ≤ 999 →
        evaluate info code name c = none) := by
  have key : ∀ (info : Info) (code name : String) (c : Criteria),
      (evaluate info code name c).isSome = true ↔
        (specSubMax info.trailingPE < c.pe ∧ specSubMax info.priceToBook < c.pb ∧
         specSubMin info.dividendYield * 100 > c.yld ∧
         specSubMin info.returnOnEquity * 100 > c.roe) := by
    intro info code name c
    simp only [evaluate, sub999, sub0]
    split
    next hcond => exact iff_of_true rfl hcond
    next hcond => exact iff_of_false (by simp) hcond
  refine ⟨key, ?_⟩
  intro info code name c hmiss hle
  have hsent : specSubMax info.trailingPE = 999 := by
    rcases hmiss with h | h <;> rw [h] <;> rfl
  rcases hev : evaluate info code name c with _ | row
  · rfl
  · have := (key info code name c).mp (by rw [hev]; rfl)
    rw [hsent] at this
    exact absurd this.1 (not_lt.mpr hle)

/-- The provider snapshot of the end-to-end scenario: price 100, P/E 12,
P/B 1.2, yield 0.05, ROE 0.12. -/
def wSnapshot9 : Info :=
  { currentPrice := some (some 100)
    trailingPE := some (some 12)
    priceToBook := some (some (6 / 5))
    dividendYield := some (some (1 / 20))
    returnOnEquity := some (some (3 / 25)) }

/-- The default filter criteria of the sidebar: maxPE 15, maxPB 1.5,
minYield 4 %, minROE 10 %. -/
def defaultCriteria : Criteria := ⟨15, 3 / 2, 4, 10⟩

/-- A snapshot with the P/E key absent but everything else attractive. -/
def wSnapshotNoPE : Info :=
  { currentPrice := some (some 100)
    priceToBook := some (some 1)
    dividendYield := some (some (1 / 20))
    returnOnEquity := some (some (3 / 25)) }

/-- C3 witness: the evaluator at concrete snapshots — one passing all four
thresholds, one failing on an absent P/E alone. -/
theorem C3_criterion_evaluator_witness :
    (evaluate wSnapshot9 "0050" "Test50" defaultCriteria).isSome = true ∧
    evaluate wSnapshotNoPE "1101" "台泥" defaultCriteria = none :=
  ⟨(C3_criterion_evaluator.1 wSnapshot9 "0050" "Test50" defaultCriteria).mpr
      (by norm_num [wSnapshot9, defaultCriteria, specSubMax, specSubMin]),
   C3_criterion_evaluator.2 wSnapshotNoPE "1101" "台泥" defaultCriteria
      (Or.inl rfl) (by norm_num [defaultCriteria])⟩

/-! ## Claim C4 -/

/-- A two-entry slice for the counterexample. -/
def wRoster2 : List Listing :=
  [⟨"0050", "Test50", "0050.TW"⟩, ⟨"9999", "Bad", "9999.TW"⟩]

/-- A provider for which every per-ticker query raises. -/
def wProviderFail : Nat → Listing → Except PyErr Info := fun _ _ => .error .netErr

/-- C4, counterexample to the claim as stated: on a slice of N = 2 tickers
(all of which fail the Metric Fetcher), the scan loop does not return a
result sequence together with a failure count — it aborts with the NameError
raised by the unimported `time` in the pacing call, and no failure count is
aggregated anywhere in the loop. -/
theorem C4_counterexample :
    scan_loop moduleImports wProviderFail defaultCriteria wRoster2 0 = .error .nameErr ∧
    ∀ res : List ScanRow,
      scan_loop moduleImports wProviderFail defaultCriteria wRoster2 0 ≠ .ok res := by
  have h1 : scan_loop moduleImports wProviderFail defaultCriteria wRoster2 0 =
      .error .nameErr := rfl
  exact ⟨h1, fun res hok => by rw [h1] at hok; cases hok⟩

/-- C4 (amended): with the missing `import time` repaired (so that the pacing
call succeeds), the scan loop never aborts on a single entry's failure: it
returns the in-order aggregation of the passing entries (`scanPure`), whose
length is at most the slice length N.  No failure count is returned by the
code, so "result length + failure count = N" is not expressible; what holds
is that passing results appear in input-slice order and number at most N. -/
theorem C4_scan_amended (roster : List Listing)
    (provider : Nat → Listing → Except PyErr Info) (c : Criteria) (n : Nat) :
    scan_loop fixedImports provider c roster n = .ok (scanPure provider c roster n) ∧
    (scanPure provider c roster n).length ≤ roster.length := by
  induction roster generalizing n with
  | nil => exact ⟨rfl, by simp [scanPure]⟩
  | cons r rest ih =>
    have h1 := (ih (n + 1)).1
    have h2 := (ih (n + 1)).2
    have hres : resolveName fixedImports "time" = .ok () := rfl
    constructor
    · simp only [scan_loop, scanPure, hres, h1]
    · simp only [scanPure, List.length_append, List.length_cons]
      rcases analyze_stock (provider n r) r.code r.name c with _ | x <;>
        simp <;> omega

/-! ## Claim C5 -/

/-- If row `k` is the first keyword row and `k` is inside the fuel window,
the scan finds exactly `k`. -/
theorem scanKW_first {rows : List (List Cell)} {fuel k : Nat}
    (hk : k < fuel) (hkw : rowKW (rows.getD k []) = true)
    (hfirst : ∀ j, j < k → rowKW (rows.getD j []) = false) :
    scanKW rows fuel = some k := by
  induction rows generalizing fuel k with
  | nil =>
    have hnil : ([] : List (List Cell)).getD k [] = [] := rfl
    rw [hnil] at hkw
    exact absurd hkw (by decide)
  | cons r rest ih =>
    rcases fuel with _ | fuel
    · omega
    rcases k with _ | k
    · simp only [List.getD_cons_zero] at hkw
      simp [scanKW, hkw]
    · have h0 : rowKW r = false := by
        have := hfirst 0 (Nat.succ_pos k)
        simpa using this
      have hrec : scanKW rest fuel = some k := by
        refine ih (by omega) (by simpa using hkw) ?_
        intro j hj
        have := hfirst (j + 1) (by omega)
        simpa using this
      simp [scanKW, h0, hrec]

/-- If no row inside the window `min fuel (len rows)` has the keyword, the
scan fails. -/
theorem scanKW_none {rows : List (List Cell)} {fuel : Nat}
    (h : ∀ i, i < min fuel rows.length → rowKW (rows.getD i []) = false) :
    scanKW rows fuel = none := by
  induction rows generalizing fuel with
  | nil => cases fuel <;> rfl
  | cons r rest ih =>
    rcases fuel with _ | fuel
    · rfl
    have h0 : rowKW r = false := by
      have := h 0 (by simp)
      simpa using this
    have hrec : scanKW rest fuel = none := by
      refine ih ?_
      intro i hi
      have := h (i + 1) (by simp at hi ⊢; omega)
      simpa using this
    simp [scanKW, h0, hrec]

/-- C5: for every raw table in which the header keyword first appears in row
`k` with `k < 5`, the parser selects row `k` as the header row (the re-based
columns are row `k`) and the emitted data rows are exactly the rows strictly
after `k`; and if no row within the first `min 5 len` rows contains the
keyword, the parse fails with the empty frame, so no listings are produced
from that table. -/
theorem C5_header_selection (rows : List (List Cell)) :
    (∀ k, k < 5 → rowKW (rows.getD k []) = true →
      (∀ j, j < k → rowKW (rows.getD j []) = false) →
      fetch_and_parse (.tables rows) = .ok ⟨rows.getD k [], rows.drop (k + 1)⟩) ∧
    ((∀ i, i < min 5 rows.length → rowKW (rows.getD i []) = false) →
      fetch_and_parse (.tables rows) = .ok DF.empty) := by
  constructor
  · intro k hk hkw hfirst
    have : findHeader rows = some k := scanKW_first hk hkw hfirst
    simp [fetch_and_parse, this]
  · intro h
    have : findHeader rows = none := scanKW_none h
    simp [fetch_and_parse, this]

/-- A raw table with a decoy row before the header row (header at index 1). -/
def wTable5 : List (List Cell) :=
  [[.str "股票", .nan],
   [.str "有價證券代號及名稱", .str "市場別"],
   [.str "1101　台泥", .str "上市"]]

/-- A raw table with no keyword row at all. -/
def wNoKW : List (List Cell) := [[.str "hello", .str "world"]]

/-- C5 witness: header correctly found at index 1 of a concrete table, data
rows = rows after index 1; and the keyword-free table parses to the empty
frame. -/
theorem C5_header_selection_witness :
    fetch_and_parse (.tables wTable5) =
      .ok ⟨[.str "有價證券代號及名稱", .str "市場別"],
           [[.str "1101　台泥", .str "上市"]]⟩ ∧
    fetch_and_parse (.tables wNoKW) = .ok DF.empty := by
  constructor
  · have := (C5_header_selection wTable5).1 1 (by decide) (by decide)
      (fun j hj => by
        have hj0 : j = 0 := by omega
        subst hj0
        decide)
    simpa using this
  · exact (C5_header_selection wNoKW).2
      (fun i hi => by
        have hi0 : i = 0 := by
          simp [wNoKW] at hi
          omega
        subst hi0
        decide)

/-! ## Claim C6 -/

/-- A snapshot carrying only the secondary current-price key
(`regularMarketPrice`), with the primary `currentPrice` key absent. -/
def wSnapshotSec : Info :=
  { regularMarketPrice := some (some 100)
    trailingPE := some (some 12)
    priceToBook := some (some 1)
    dividendYield := some (some (1 / 20))
    returnOnEquity := some (some (3 / 25)) }

/-- C6, counterexample to the claim as stated: a snapshot whose SECONDARY
current-price field is present (but whose primary `currentPrice` key is
absent) still fails the metric gate — the code checks only
`'currentPrice' not in info` and never consults a secondary field, so the
fetch does not fail "exactly when neither field is present". -/
theorem C6_counterexample :
    wSnapshotSec.regularMarketPrice.isSome = true ∧
    fetch_metrics (.ok wSnapshotSec) = .error () :=
  ⟨rfl, rfl⟩

/-- C6 (amended): the Metric Fetcher fails with DataUnavailable exactly when
the PRIMARY current-price key `currentPrice` is absent from the provider
snapshot (no secondary field is consulted), and any exception raised during
the per-ticker query is downgraded to a skipped entry (`None` result) rather
than propagating to the caller. -/
theorem C6_price_gate_amended :
    (∀ info : Info, fetch_metrics (.ok info) = .error () ↔ info.currentPrice = none) ∧
    (∀ (e : PyErr) (code name : String) (c : Criteria),
      analyze_stock (.error e) code name c = none) := by
  constructor
  · intro info
    rcases hcp : info.currentPrice with _ | v <;> simp [fetch_metrics, hcp]
  · intro e code name c
    rfl

/-! ## Claim C7 -/

/-- C7: for every non-empty selected slice, the batch scan raises an uncaught
NameError after processing the first entry: the pacing call `time.sleep(0.1)`
references the name `time`, which is not among the module imports
(`streamlit`, `yfinance`, `pandas`, `requests`, `urllib3`), so the scan loop
never runs to completion for any non-empty slice, with any provider, any
criteria and any starting call count. -/
theorem C7_scan_nameerror (r : Listing) (rest : List Listing)
    (provider : Nat → Listing → Except PyErr Info) (c : Criteria) (n : Nat) :
    scan_loop moduleImports provider c (r :: rest) n = .error .nameErr := by
  have hres : resolveName moduleImports "time" = .error .nameErr := rfl
  simp only [scan_loop, hres]

/-! ## Claim C8 -/

/-- Invariants of the per-segment `final_list` loop: every emitted listing
has a 4-character code, its ticker is the code plus the given segment suffix,
and it originates from a combined code/name cell that is a string containing
the full-width delimiter (rows lacking the delimiter, non-string cells, and
codes of other lengths are skipped). -/
theorem buildSegment_inv {df : DF} {suf : String} {l : List Listing}
    (h : buildSegment df suf = .ok l) :
    ∀ x ∈ l, x.code.length = 4 ∧ x.yf_ticker = x.code ++ suf ∧
      ∃ cells s, df.getCol secCol = .ok cells ∧ Cell.str s ∈ cells ∧
        strHas s fwspStr = true ∧
        x.code = (pySplitFW s).getD 0 "" ∧ x.name = (pySplitFW s).getD 1 "" := by
  intro x hx
  unfold buildSegment at h
  simp only [bind, Except.bind] at h
  rcases hc : df.getCol secCol with e | cells <;> rw [hc] at h <;> dsimp only at h
  · cases h
  · simp only [pure, Except.pure] at h
    cases h
    rw [List.mem_filterMap] at hx
    obtain ⟨c, hcmem, hfc⟩ := hx
    rcases c with s | _
    · by_cases hfw : strHas s fwspStr = true
      · simp only [hfw, if_true] at hfc
        by_cases hlen : ((pySplitFW s).getD 0 "").length = 4
        · simp only [hlen, if_true] at hfc
          cases hfc
          exact ⟨hlen, rfl, cells, s, rfl, hcmem, hfw, rfl, rfl⟩
        · simp only [hlen, if_false] at hfc
          cases hfc
      · simp only [hfw, if_false] at hfc
        cases hfc
    · cases hfc

/-- C8: every SecurityListing emitted by the roster parser has a code of
exactly 4 characters and a provider ticker equal to the code plus the
segment suffix, the suffix determined solely by which segment's loop produced
the row; rows whose combined cell lacks the full-width delimiter or whose
code is not exactly 4 characters never appear.  The same invariants hold of
every listing in any `get_tw_stock_list` output. -/
theorem C8_listing_invariants :
    (∀ (df : DF) (suf : String) (l : List Listing),
      buildSegment df suf = .ok l → ∀ x ∈ l,
        x.code.length = 4 ∧ x.yf_ticker = x.code ++ suf ∧
        ∃ cells s, df.getCol secCol = .ok cells ∧ Cell.str s ∈ cells ∧
          strHas s fwspStr = true ∧
          x.code = (pySplitFW s).getD 0 "" ∧ x.name = (pySplitFW s).getD 1 "") ∧
    (∀ (f1 f2 : Fetch) (x : Listing), x ∈ get_tw_stock_list f1 f2 →
      x.code.length = 4 ∧
      (x.yf_ticker = x.code ++ ".TW" ∨ x.yf_ticker = x.code ++ ".TWO")) := by
  constructor
  · intro df suf l h
    exact buildSegment_inv h
  · intro f1 f2 x hx
    rcases hT : tryGetList f1 f2 with e | l
    · simp [get_tw_stock_list, hT] at hx
    · simp only [get_tw_stock_list, hT] at hx
      obtain ⟨d1, d2, _, _, hpp⟩ := tryGetList_ok_inv hT
      obtain ⟨lc, oc, l1, l2, _, _, h8, h9, hl⟩ := post_parse_ok_inv hpp
      subst hl
      rcases List.mem_append.mp hx with hm | hm
      · obtain ⟨hc4, hsuf, _⟩ := buildSegment_inv h8 x hm
        exact ⟨hc4, Or.inl hsuf⟩
      · obtain ⟨hc4, hsuf, _⟩ := buildSegment_inv h9 x hm
        exact ⟨hc4, Or.inr hsuf⟩

/-- A one-row single-column frame holding one combined code/name cell. -/
def wDF : DF := ⟨[.str secCol], [[.str "1101　台泥"]]⟩

/-- C8 witness: the invariants evaluated on a concrete segment frame. -/
theorem C8_listing_invariants_witness :
    ("1101" : String).length = 4 ∧ "1101.TW" = "1101" ++ ".TW" ∧
    ∃ cells s, wDF.getCol secCol = .ok cells ∧ Cell.str s ∈ cells ∧
      strHas s fwspStr = true ∧
      "1101" = (pySplitFW s).getD 0 "" ∧ "台泥" = (pySplitFW s).getD 1 "" := by
  have := C8_listing_invariants.1 wDF ".TW" [⟨"1101", "台泥", "1101.TW"⟩] rfl
    ⟨"1101", "台泥", "1101.TW"⟩ (by simp)
  simpa using this

/-! ## Claim C9 -/

/-- C9: on the roster entry {code "0050", name "Test50", ticker "0050.TW"}
with the default criteria, a provider snapshot {price 100, trailingPE 12,
priceToBook 1.2, dividendYield 0.05, returnOnEquity 0.12} passes the
per-entry pipeline (Metric Fetcher + Criterion Evaluator) and yields exactly
one ScanResult with 代號 "0050", 股價 100, 本益比 12.0, 股價淨值比 1.2,
殖利率 5.0 and ROE 12.0 (ratio fields rounded to two decimals); over the
one-entry slice the loop-body aggregation produces exactly that one record. -/
theorem C9_end_to_end :
    analyze_stock (.ok wSnapshot9) "0050" "Test50" defaultCriteria =
      some ⟨"0050", "Test50", some 100, 12, 6 / 5, 5, 12, some "N/A"⟩ ∧
    scanPure (fun _ _ => .ok wSnapshot9) defaultCriteria
      [⟨"0050", "Test50", "0050.TW"⟩] 0 =
      [⟨"0050", "Test50", some 100, 12, 6 / 5, 5, 12, some "N/A"⟩] := by
  have h : analyze_stock (.ok wSnapshot9) "0050" "Test50" defaultCriteria =
      some ⟨"0050", "Test50", some 100, 12, 6 / 5, 5, 12, some "N/A"⟩ := by
    norm_num [analyze_stock, fetch_metrics, evaluate, wSnapshot9, defaultCriteria,
      pyGetNum, noneSub, round2, pyRound]
  exact ⟨h, by simp [scanPure, h]⟩

/-! ## Claim C10 -/

/-- A call-stable provider returning the same snapshot on every call. -/
def wProvider10 : Nat → Listing → Except PyErr Info := fun _ _ => .ok wSnapshot9

/-- C10, evaluation at the failing input: on the one-entry slice with a
call-stable provider, the scan loop as written raises NameError (missing
`import time`) and yields no ScanResult sequence at all; with the import
repaired, a first run (call counter 0) and a second run (call counter 1)
yield identical outcomes, as the claim intends. -/
theorem C10_nameerror_eval :
    scan_loop moduleImports wProvider10 defaultCriteria
      [⟨"0050", "Test50", "0050.TW"⟩] 0 = .error .nameErr ∧
    scan_loop fixedImports wProvider10 defaultCriteria
      [⟨"0050", "Test50", "0050.TW"⟩] 0 =
    scan_loop fixedImports wProvider10 defaultCriteria
      [⟨"0050", "Test50", "0050.TW"⟩] 1 :=
  ⟨rfl, rfl⟩

end StockValue
